import Mathlib

/-!
Verification of `week1/main.py` (1D GridWorld environment, scripted policies,
episode runner). Machine integers are modelled as `ℤ`/`ℕ` (Python integers are
unbounded), float rewards as exact rationals `ℚ` (the constants 10.0, -0.1,
-0.2, -100.0), and the `random.Random` source as an explicit stream of draws
consumed in order. Fallible operations (the `assert` guard in `step`, the
potentially nonterminating resampling loop in `reset`) are returned as
`Except` / fuel-bounded `Option` values.
-/

namespace GridWorld

/-- The construction-time data of `GridWorld1D.__init__`: grid size `N` and
`step_limit`. (`state` and `goal_state` are `None` until `reset`; `rng` is
modelled separately as an explicit `RNG` value threaded through `reset`.) -/
structure EnvConfig where
  N : ℕ
  step_limit : ℕ
deriving DecidableEq, Repr

/-- Translation of `GridWorld1D.__init__(N, step_limit, seed)`: it stores the
fields and performs no validation of any kind, so construction always
succeeds. The `Except` result type records whether construction raised. -/
def GridWorld1D.init (N step_limit : ℕ) : Except String EnvConfig :=
  Except.ok ⟨N, step_limit⟩

/-- Model of a `random.Random` instance: an abstract stream of natural-number
draws together with an index of the next draw to consume. -/
structure RNG where
  stream : ℕ → ℕ
  idx : ℕ

/-- `rng.randrange(n)`: consume one draw, reduced modulo `n` to land in
`[0, n)` (for `n > 0`; the source never calls it with `n = 0`). -/
def RNG.randrange (r : RNG) (n : ℕ) : ℕ × RNG :=
  (r.stream r.idx % n, ⟨r.stream, r.idx + 1⟩)

/-- Episode state of a `GridWorld1D` instance after `reset`: grid size,
step limit, current position, goal position, and steps taken this episode. -/
structure GridWorld1D where
  N : ℕ
  step_limit : ℕ
  state : ℤ
  goal_state : ℤ
  steps_taken : ℕ
deriving DecidableEq, Repr

/-- The resampling loop of `GridWorld1D.reset`: draw `start_state` and redraw
while it equals `goal_state`. The loop is unbounded in the source; `fuel`
bounds the number of draws, `none` meaning the loop has not terminated
within `fuel` draws. -/
def resampleStart (N goal : ℕ) : RNG → ℕ → Option (ℕ × RNG)
  | _, 0 => none
  | r, fuel + 1 =>
    let (s, r') := r.randrange N
    if s = goal then resampleStart N goal r' fuel else some (s, r')

/-- Translation of `GridWorld1D.reset`: draw `goal_state` from `[0, N)`, draw
`start_state` from `[0, N)` resampling until it differs from `goal_state`,
set `steps_taken = 0`. Returns the fresh episode state (whose `state` field
is the value `reset` returns in the source) and the advanced rng. -/
def GridWorld1D.reset (cfg : EnvConfig) (r : RNG) (fuel : ℕ) :
    Option (GridWorld1D × RNG) :=
  let (goal, r1) := r.randrange cfg.N
  match resampleStart cfg.N goal r1 fuel with
  | none => none
  | some (start, r2) =>
      some (⟨cfg.N, cfg.step_limit, (start : ℤ), (goal : ℤ), 0⟩, r2)

/-- The move of `GridWorld1D.step`: action 0 (left) decrements the position
clamped at 0, any other action (the guard leaves only 1, right) increments it
clamped at `N - 1`. -/
def GridWorld1D.movePos (env : GridWorld1D) (action : ℤ) : ℤ :=
  if action = 0 then max (env.state - 1) 0
  else min (env.state + 1) ((env.N : ℤ) - 1)

/-- Translation of `GridWorld1D.step(action)`. Returns the mutated instance
together with `Except.ok (next_state, reward, done)`, or the original
instance together with `Except.error` when the leading `assert` fires (the
assert precedes every mutation in the source). Rewards are exact rationals. -/
def GridWorld1D.step (env : GridWorld1D) (action : ℤ) :
    GridWorld1D × Except String (ℤ × ℚ × Bool) :=
  if action = 0 ∨ action = 1 then
    let old_state := env.state
    let new_state := env.movePos action
    let env' : GridWorld1D :=
      { env with state := new_state, steps_taken := env.steps_taken + 1 }
    if new_state = env.goal_state then
      (env', Except.ok (new_state, 10, true))
    else
      let old_dist := |old_state - env.goal_state|
      let new_dist := |new_state - env.goal_state|
      let reward : ℚ := if new_dist < old_dist then -1/10 else -2/10
      if env.steps_taken + 1 ≥ env.step_limit then
        (env', Except.ok (new_state, reward + -100, true))
      else
        (env', Except.ok (new_state, reward, false))
  else
    (env, Except.error "Invalid action, must be 0 (left) or 1 (right).")

/-- Run a sequence of `step` calls from an episode state, keeping only the
mutated instance (invalid actions raise before mutating, leaving it as is). -/
def runSteps (env : GridWorld1D) (actions : List ℤ) : GridWorld1D :=
  actions.foldl (fun e a => (GridWorld1D.step e a).1) env

/-- Both positions lie in `[0, N)`. -/
def posInv (env : GridWorld1D) : Prop :=
  0 ≤ env.state ∧ env.state < (env.N : ℤ) ∧
    0 ≤ env.goal_state ∧ env.goal_state < (env.N : ℤ)

instance (env : GridWorld1D) : Decidable (posInv env) := by
  unfold posInv; infer_instance

/-- Action constant: 0 is left. -/
def actLeft : ℤ := 0

/-- Action constant: 1 is right. -/
def actRight : ℤ := 1

/-- Translation of `monotonous_policy`: given the current direction bit
(`monotonous_direction`, 0 = left, 1 = right), the observed state and the grid
size, return the updated direction and the chosen action. The direction is
only ever 0 or 1 (it is initialised by `randrange(2)` and each branch writes
0 or 1), so the source's unreachable fall-through for other values is the
`dir = 1` branch here. -/
def monotonous_policy (dir : ℕ) (state : ℤ) (N : ℕ) : ℕ × ℤ :=
  if dir = 0 then
    if state = 0 then (1, 1) else (0, 0)
  else
    if state = (N : ℤ) - 1 then (0, 0) else (1, 1)

/-- The private memory of `wildcard_policy` (the globals `wildcard_origin`,
`wildcard_extent`, `wildcard_direction`). -/
structure WildcardState where
  origin : ℤ
  extent : ℤ
  direction : ℤ
deriving DecidableEq, Repr

/-- Translation of `wildcard_policy`: given the policy memory, the observed
state, `env.steps_taken` and `env.N`, return the updated memory and the
chosen action. -/
def wildcard_policy (w : WildcardState) (state : ℤ) (steps_taken N : ℕ) :
    WildcardState × ℤ :=
  if steps_taken = 0 then (⟨state, 1, 1⟩, 1)
  else
    let target := max 0 (min ((N : ℤ) - 1) (w.origin + w.direction * w.extent))
    let w' :=
      if state = target then
        if w.direction = 1 then { w with direction := -1 }
        else { w with direction := 1, extent := w.extent + 1 }
      else w
    if state < target then (w', 1)
    else if state > target then (w', 0)
    else (w', if w'.direction = 1 then 1 else 0)

/-- Clamp `x` into `[lo, hi]` (the source spells it
`max(lo, min(hi, x))`). -/
def clamp (x lo hi : ℤ) : ℤ := max lo (min hi x)

/-- The expanding-sweep algorithm exactly as the specification words it:
at `steps_taken == 0` record `origin = state`, set `extent = 1`,
`direction = +1` and return right; later, compute
`target = clamp(origin + direction * extent, 0, size - 1)`; upon arriving at
the target flip `direction` to `-1` if it was `+1` (extent unchanged), else
flip it to `+1` and increment `extent`; then move right if `state < target`,
left if `state > target`, and in the (possibly just-updated) direction if
`state == target`. -/
def wildcard_policy_spec (w : WildcardState) (state : ℤ) (steps_taken N : ℕ) :
    WildcardState × ℤ :=
  if steps_taken = 0 then ({ origin := state, extent := 1, direction := 1 }, actRight)
  else
    let target := clamp (w.origin + w.direction * w.extent) 0 ((N : ℤ) - 1)
    let w' :=
      if state = target then
        if w.direction = 1 then { w with direction := -1 }
        else { w with direction := 1, extent := w.extent + 1 }
      else w
    let action :=
      if state < target then actRight
      else if state > target then actLeft
      else if w'.direction = 1 then actRight else actLeft
    (w', action)

/-- The per-iteration loop of `run_episode` specialised to
`monotonous_policy`: remaining iterations, episode state, direction bit,
accumulated return, 0-based count of iterations already done. Returns
`(total_return, steps)` as the source does — `(total, t + 1)` when `step`
reports done, `(total, max_steps)` when the loop exhausts — and `none` in the
unreachable case that `step` raises. -/
def monoLoop : ℕ → GridWorld1D → ℕ → ℚ → ℕ → Option (ℚ × ℕ)
  | 0, _, _, total, t => some (total, t)
  | rem + 1, env, dir, total, t =>
    let (dir', a) := monotonous_policy dir env.state env.N
    let (env', res) := env.step a
    match res with
    | Except.error _ => none
    | Except.ok (_, reward, done) =>
      if done then some (total + reward, t + 1)
      else monoLoop rem env' dir' (total + reward) t.succ

/-- Translation of `run_episode(env, monotonous_policy, max_steps)`: `reset`
draws from the environment's own rng (`envR`, the seeded source), then the
line `monotonous_direction = random.randrange(2)` draws the initial direction
from the PROCESS-GLOBAL `random` module (`globalR`) — not from `env.rng` —
and the loop runs. `fuel` bounds the resampling loop inside `reset`. -/
def run_episode_mono (cfg : EnvConfig) (envR globalR : RNG)
    (max_steps fuel : ℕ) : Option (ℚ × ℕ) :=
  match GridWorld1D.reset cfg envR fuel with
  | none => none
  | some (env0, _) =>
    let (d0, _) := globalR.randrange 2
    monoLoop max_steps env0 d0 0 0

/-- A rng whose underlying stream draws goal 8 then start 5 for `N = 10`. -/
def envStreamA : RNG := ⟨fun i => if i = 0 then 8 else 5, 0⟩

/-- A rng whose stream is constantly `v`: stands for one possible state of
the unseeded process-global `random` module. -/
def constRNG (v : ℕ) : RNG := ⟨fun _ => v, 0⟩

/-! ### Helper lemmas about `step` and `reset` -/

/-- Characterisation of `step` on a valid action: the instance is mutated to
the moved position with `steps_taken` incremented, and the result follows the
goal check / shaped penalty / step-limit check in that order. -/
lemma step_valid (env : GridWorld1D) (a : ℤ) (ha : a = 0 ∨ a = 1) :
    env.step a =
      ({ env with state := env.movePos a, steps_taken := env.steps_taken + 1 },
       if env.movePos a = env.goal_state then
         Except.ok (env.movePos a, 10, true)
       else if env.steps_taken + 1 ≥ env.step_limit then
         Except.ok (env.movePos a,
           (if |env.movePos a - env.goal_state| < |env.state - env.goal_state|
            then (-1/10 : ℚ) else -2/10) + -100, true)
       else
         Except.ok (env.movePos a,
           if |env.movePos a - env.goal_state| < |env.state - env.goal_state|
           then (-1/10 : ℚ) else -2/10, false)) := by
  unfold GridWorld1D.step
  rw [if_pos ha]
  dsimp only
  split_ifs <;> rfl

/-- `step` on an invalid action raises before any mutation. -/
lemma step_invalid (env : GridWorld1D) (a : ℤ) (h0 : a ≠ 0) (h1 : a ≠ 1) :
    env.step a =
      (env, Except.error "Invalid action, must be 0 (left) or 1 (right).") := by
  unfold GridWorld1D.step
  rw [if_neg (by tauto)]

/-- The clamped move stays inside `[0, N)` whenever the grid is nonempty. -/
lemma movePos_mem (env : GridWorld1D) (a : ℤ) (hN : 1 ≤ env.N)
    (h0 : 0 ≤ env.state) (h1 : env.state < (env.N : ℤ)) :
    0 ≤ env.movePos a ∧ env.movePos a < (env.N : ℤ) := by
  unfold GridWorld1D.movePos
  have : (1 : ℤ) ≤ (env.N : ℤ) := by exact_mod_cast hN
  split_ifs <;> constructor <;> omega

/-- One `step` call preserves the position invariant and the grid size. -/
lemma step_posInv (env : GridWorld1D) (a : ℤ) (hN : 1 ≤ env.N)
    (h : posInv env) : posInv (env.step a).1 ∧ (env.step a).1.N = env.N := by
  obtain ⟨hs0, hs1, hg0, hg1⟩ := h
  by_cases hv : a = 0 ∨ a = 1
  · rw [step_valid env a hv]
    have hm := movePos_mem env a hN hs0 hs1
    exact ⟨⟨hm.1, hm.2, hg0, hg1⟩, rfl⟩
  · push_neg at hv
    rw [step_invalid env a hv.1 hv.2]
    exact ⟨⟨hs0, hs1, hg0, hg1⟩, rfl⟩

/-- Any sequence of `step` calls preserves the position invariant and the
grid size. -/
lemma runSteps_posInv (actions : List ℤ) :
    ∀ env : GridWorld1D, 1 ≤ env.N → posInv env →
      posInv (runSteps env actions) ∧ (runSteps env actions).N = env.N := by
  induction actions with
  | nil => intro env _ h; exact ⟨h, rfl⟩
  | cons a as ih =>
    intro env hN h
    have hstep := step_posInv env a hN h
    have hrw : runSteps env (a :: as) = runSteps (env.step a).1 as := rfl
    have := ih (env.step a).1 (by rw [hstep.2]; exact hN) hstep.1
    rw [hrw]
    exact ⟨this.1, by rw [this.2, hstep.2]⟩

/-- A successful resampling loop returns a draw that differs from the goal
and lies in `[0, N)`. -/
lemma resampleStart_some (N goal : ℕ) (hN : 0 < N) :
    ∀ (fuel : ℕ) (r r' : RNG) (s : ℕ),
      resampleStart N goal r fuel = some (s, r') → s ≠ goal ∧ s < N := by
  intro fuel
  induction fuel with
  | zero => intro r r' s h; simp [resampleStart] at h
  | succ n ih =>
    intro r r' s h
    unfold resampleStart at h
    dsimp [RNG.randrange] at h
    split_ifs at h with hg
    · exact ih _ _ _ h
    · have hs : r.stream r.idx % N = s := by
        simpa using congrArg Prod.fst (Option.some.inj h)
      refine ⟨by rw [← hs]; exact hg, ?_⟩
      rw [← hs]; exact Nat.mod_lt _ hN

/-- A successful `reset` yields an episode state with the configured sizes,
zero steps taken, distinct start and goal, and both positions in `[0, N)`. -/
lemma reset_some (cfg : EnvConfig) (r r' : RNG) (fuel : ℕ)
    (env : GridWorld1D) (hN : 0 < cfg.N)
    (h : GridWorld1D.reset cfg r fuel = some (env, r')) :
    env.N = cfg.N ∧ env.step_limit = cfg.step_limit ∧ env.steps_taken = 0 ∧
      env.state ≠ env.goal_state ∧ posInv env := by
  unfold GridWorld1D.reset at h
  dsimp [RNG.randrange] at h
  set goal := r.stream r.idx % cfg.N with hgoal
  cases hres : resampleStart cfg.N goal ⟨r.stream, r.idx + 1⟩ fuel with
  | none => rw [hres] at h; exact absurd h (by simp)
  | some p =>
    obtain ⟨s, r2⟩ := p
    rw [hres] at h
    have hsp := resampleStart_some cfg.N goal hN fuel _ _ _ hres
    have henv : env = ⟨cfg.N, cfg.step_limit, (s : ℤ), (goal : ℤ), 0⟩ := by
      have := congrArg Prod.fst (Option.some.inj h)
      exact this.symm
    subst henv
    refine ⟨rfl, rfl, rfl, ?_, ?_⟩
    · show (s : ℤ) ≠ (goal : ℤ)
      exact fun hc => hsp.1 (by exact_mod_cast hc)
    · show 0 ≤ (s : ℤ) ∧ (s : ℤ) < (cfg.N : ℤ) ∧
        0 ≤ (goal : ℤ) ∧ (goal : ℤ) < (cfg.N : ℤ)
      refine ⟨by positivity, by exact_mod_cast hsp.2, by positivity, ?_⟩
      exact_mod_cast Nat.mod_lt _ hN

/-! ### Claim theorems -/

/-- C1: for every episode state with `size ≥ 2` and every valid call to
`step`, if after the move the current position equals the goal position then
`step` returns `(current_position, +10.0, terminal = true)` regardless of
`steps_taken` — no step-limit penalty is added even if this step also
reaches the step limit. -/
theorem step_goal_priority (env : GridWorld1D) (a : ℤ)
    (_hN : 2 ≤ env.N) (ha : a = 0 ∨ a = 1)
    (hgoal : env.movePos a = env.goal_state) :
    (env.step a).2 = Except.ok (env.goal_state, 10, true) := by
  rw [step_valid env a ha]
  simp [hgoal]

/-- C1 witness: at `N = 10`, `step_limit = 100`, position 7, goal 8 and 99
steps already taken, moving right reaches the goal on the very step that
exhausts the limit and still returns `(8, +10.0, true)`. -/
theorem step_goal_priority_witness :
    ((⟨10, 100, 7, 8, 99⟩ : GridWorld1D).step 1).2 = Except.ok (8, 10, true) :=
  step_goal_priority ⟨10, 100, 7, 8, 99⟩ 1 (by norm_num) (Or.inr rfl) (by rfl)

/-- C2: for every valid `step` call whose resulting position is not the goal
and which does not reach the step limit, the reward is exactly `-0.1` when
the new distance to the goal is strictly smaller than the old one and
exactly `-0.2` otherwise, with `terminal = false`. -/
theorem step_shaped_reward (env : GridWorld1D) (a : ℤ)
    (ha : a = 0 ∨ a = 1)
    (hng : env.movePos a ≠ env.goal_state)
    (hlim : env.steps_taken + 1 < env.step_limit) :
    (env.step a).2 = Except.ok (env.movePos a,
      if |env.movePos a - env.goal_state| < |env.state - env.goal_state|
      then (-1/10 : ℚ) else -2/10, false) := by
  rw [step_valid env a ha]
  rw [if_neg hng, if_neg (by omega)]

/-- C2 witness: at `N = 10`, position 5, goal 8, 0 steps taken, moving right
lands on 6 (strictly closer), so the reward is `-0.1` and the episode is
open. -/
theorem step_shaped_reward_witness :
    ((⟨10, 100, 5, 8, 0⟩ : GridWorld1D).step 1).2 =
      Except.ok ((⟨10, 100, 5, 8, 0⟩ : GridWorld1D).movePos 1,
        if |(⟨10, 100, 5, 8, 0⟩ : GridWorld1D).movePos 1 - 8| < |(5 : ℤ) - 8|
        then (-1/10 : ℚ) else -2/10, false) :=
  step_shaped_reward ⟨10, 100, 5, 8, 0⟩ 1 (Or.inr rfl) (by decide) (by norm_num)

/-- C3: for every valid `step` call that does not land on the goal, if the
incremented step counter reaches `step_limit` the returned reward is the
shaped penalty plus exactly `-100.0` with `terminal = true`; otherwise
`terminal = false` and no `-100.0` is added. -/
theorem step_limit_penalty (env : GridWorld1D) (a : ℤ)
    (ha : a = 0 ∨ a = 1)
    (hng : env.movePos a ≠ env.goal_state) :
    (env.steps_taken + 1 ≥ env.step_limit →
      (env.step a).2 = Except.ok (env.movePos a,
        (if |env.movePos a - env.goal_state| < |env.state - env.goal_state|
         then (-1/10 : ℚ) else -2/10) + -100, true)) ∧
    (env.steps_taken + 1 < env.step_limit →
      (env.step a).2 = Except.ok (env.movePos a,
        if |env.movePos a - env.goal_state| < |env.state - env.goal_state|
        then (-1/10 : ℚ) else -2/10, false)) := by
  rw [step_valid env a ha]
  constructor
  · intro hlim
    rw [if_neg hng, if_pos hlim]
  · intro hlim
    rw [if_neg hng, if_neg (by omega)]

/-- C3 witness: at `N = 10`, position 5, goal 8 and 99 steps taken, moving
left lands on 4 (not the goal) as step 100 of limit 100, so the reward is
`-0.2 + -100.0` and the episode terminates. -/
theorem step_limit_penalty_witness :
    ((⟨10, 100, 5, 8, 99⟩ : GridWorld1D).step 0).2 =
      Except.ok ((⟨10, 100, 5, 8, 99⟩ : GridWorld1D).movePos 0,
        (if |(⟨10, 100, 5, 8, 99⟩ : GridWorld1D).movePos 0 - 8| < |(5 : ℤ) - 8|
         then (-1/10 : ℚ) else -2/10) + -100, true) :=
  (step_limit_penalty ⟨10, 100, 5, 8, 99⟩ 0 (Or.inl rfl) (by decide)).1
    (by norm_num)

/-- C4: reproducibility under a fixed environment seed fails, because
`run_episode` draws the monotonous policy's per-episode initial direction
from the process-global `random` module rather than from the environment's
seeded rng: with the identical seeded environment stream but two states of
the global source, the monotonous-policy episode produces different returns
and different step counts. -/
theorem run_episode_mono_depends_on_global_rng :
    run_episode_mono ⟨10, 100⟩ envStreamA (constRNG 1) 100 10 ≠
      run_episode_mono ⟨10, 100⟩ envStreamA (constRNG 0) 100 10 := by
  simp [run_episode_mono, GridWorld1D.reset, RNG.randrange, resampleStart,
    envStreamA, constRNG, monoLoop, GridWorld1D.step, monotonous_policy,
    GridWorld1D.movePos]

/-- C5 counterexample: constructing an environment with `size = 1 < 2` does
not fail — `__init__` performs no validation and returns normally. -/
theorem init_size_one_succeeds :
    GridWorld1D.init 1 100 = Except.ok ⟨1, 100⟩ := rfl

/-- C5 amended: construction never fails for any `size` (the constructor has
no fail-fast check); the unsatisfiable distinct-start guarantee surfaces only
in `reset`, whose resampling loop never terminates for `size = 1` (it
returns `none` for every fuel bound). -/
theorem init_no_validation :
    (∀ N sl : ℕ, GridWorld1D.init N sl = Except.ok ⟨N, sl⟩) ∧
    (∀ (sl : ℕ) (r : RNG) (fuel : ℕ),
      GridWorld1D.reset ⟨1, sl⟩ r fuel = none) := by
  constructor
  · intro N sl; rfl
  · intro sl r fuel
    have key : ∀ (f : ℕ) (r2 : RNG), resampleStart 1 0 r2 f = none := by
      intro f
      induction f with
      | zero => intro r2; rfl
      | succ n ih =>
        intro r2
        unfold resampleStart
        dsimp [RNG.randrange]
        rw [if_pos (Nat.mod_one _)]
        exact ih _
    unfold GridWorld1D.reset
    dsimp [RNG.randrange]
    rw [Nat.mod_one, key]

/-- C6: for every environment with `size ≥ 2`, after a successful `reset`
and any sequence of `step` calls, `current_position` and `goal_position`
lie in `[0, size)`. -/
theorem positions_stay_in_range (cfg : EnvConfig) (r r' : RNG) (fuel : ℕ)
    (env0 : GridWorld1D) (actions : List ℤ) (hN : 2 ≤ cfg.N)
    (hr : GridWorld1D.reset cfg r fuel = some (env0, r')) :
    posInv (runSteps env0 actions) := by
  have h0 := reset_some cfg r r' fuel env0 (by omega) hr
  exact (runSteps_posInv actions env0 (by omega) h0.2.2.2.2).1

/-- C6 witness: after the reset that draws goal 0 and start 1 on a
size-10 grid, running the action sequence `[left, right, right, left]`
leaves both positions inside `[0, 10)`. -/
theorem positions_stay_in_range_witness :
    posInv (runSteps ⟨10, 100, 1, 0, 0⟩ [0, 1, 1, 0]) :=
  positions_stay_in_range ⟨10, 100⟩ ⟨fun i => i, 0⟩ ⟨fun i => i, 2⟩ 1
    ⟨10, 100, 1, 0, 0⟩ [0, 1, 1, 0] (by norm_num) rfl

/-- C7: for every environment with `size ≥ 2`, a successful `reset` never
returns a start equal to the freshly drawn goal, and it sets `steps_taken`
to 0. -/
theorem reset_start_distinct (cfg : EnvConfig) (r r' : RNG) (fuel : ℕ)
    (env0 : GridWorld1D) (hN : 2 ≤ cfg.N)
    (hr : GridWorld1D.reset cfg r fuel = some (env0, r')) :
    env0.state ≠ env0.goal_state ∧ env0.steps_taken = 0 := by
  have h0 := reset_some cfg r r' fuel env0 (by omega) hr
  exact ⟨h0.2.2.2.1, h0.2.2.1⟩

/-- C7 witness: the reset whose stream draws goal 0 then start 1 on a
size-10 grid yields start 1 ≠ goal 0 and a zeroed step counter. -/
theorem reset_start_distinct_witness :
    (⟨10, 100, 1, 0, 0⟩ : GridWorld1D).state ≠
      (⟨10, 100, 1, 0, 0⟩ : GridWorld1D).goal_state ∧
    (⟨10, 100, 1, 0, 0⟩ : GridWorld1D).steps_taken = 0 :=
  reset_start_distinct ⟨10, 100⟩ ⟨fun i => i, 0⟩ ⟨fun i => i, 2⟩ 1
    ⟨10, 100, 1, 0, 0⟩ (by norm_num) rfl

/-- C8: for every action outside `{0, 1}`, `step` fails with the
invalid-action error; it never interprets such a value as a move. -/
theorem step_invalid_action_errors (env : GridWorld1D) (a : ℤ)
    (h0 : a ≠ 0) (h1 : a ≠ 1) :
    (env.step a).2 =
      Except.error "Invalid action, must be 0 (left) or 1 (right)." := by
  rw [step_invalid env a h0 h1]

/-- C8 witness: action 2 at a concrete episode state raises the
invalid-action error. -/
theorem step_invalid_action_errors_witness :
    ((⟨10, 100, 5, 8, 0⟩ : GridWorld1D).step 2).2 =
      Except.error "Invalid action, must be 0 (left) or 1 (right)." :=
  step_invalid_action_errors ⟨10, 100, 5, 8, 0⟩ 2 (by decide) (by decide)

/-- C9: the wildcard policy computes exactly the expanding-sweep algorithm
of the specification — first-step initialisation of origin/extent/direction
with a move right, clamped target, direction flip (with extent growth after
a leftward sweep) upon arrival, and the three-way move choice. -/
theorem wildcard_matches_spec (w : WildcardState) (state : ℤ)
    (steps_taken N : ℕ) :
    wildcard_policy w state steps_taken N =
      wildcard_policy_spec w state steps_taken N := by
  unfold wildcard_policy wildcard_policy_spec clamp actLeft actRight
  dsimp only
  split_ifs <;> rfl

/-- C10: calling `step` with an invalid action leaves the environment
unchanged — position, goal and step counter keep their prior values, since
the action check precedes every mutation. -/
theorem step_invalid_action_no_mutation (env : GridWorld1D) (a : ℤ)
    (h0 : a ≠ 0) (h1 : a ≠ 1) :
    (env.step a).1.state = env.state ∧
    (env.step a).1.goal_state = env.goal_state ∧
    (env.step a).1.steps_taken = env.steps_taken := by
  rw [step_invalid env a h0 h1]
  exact ⟨rfl, rfl, rfl⟩

/-- C10 witness: action 5 at a concrete episode state leaves position 2,
goal 3 and step counter 7 untouched. -/
theorem step_invalid_action_no_mutation_witness :
    ((⟨4, 50, 2, 3, 7⟩ : GridWorld1D).step 5).1.state = 2 ∧
    ((⟨4, 50, 2, 3, 7⟩ : GridWorld1D).step 5).1.goal_state = 3 ∧
    ((⟨4, 50, 2, 3, 7⟩ : GridWorld1D).step 5).1.steps_taken = 7 :=
  step_invalid_action_no_mutation ⟨4, 50, 2, 3, 7⟩ 5 (by decide) (by decide)

end GridWorld
